import Mathlib

/-!
# Verification of the iron-pastebin paste store (`src/main.rs`)

Shallow embedding of the paste-storage service of `src/main.rs`:
the identifier allocator (`generate_id` and the allocation loop of `submit`),
the key deriver (`gen_key`), the request handlers (`submit`, `retrieve`,
`delete`, `replace`, `validate_key_id`) and the retention sweeper spawned in
`main`.

Modelling conventions:
- The file system directory `uploads/` is an association list from paste id to
  content (`Store`); `Path::exists`, `File::create` + `write_all`,
  `File::open` + `read_to_string` and `fs::remove_file` become `pathExists`,
  `writePaste`, `readPaste` and `removePaste` on that list.
- `rand::thread_rng` is an abstract stream `rng : Nat → Nat` of draws, consumed
  left to right; the HMAC-SHA256 primitive of the external `crypto` crate is an
  abstract function `hmac : String → List Byte` (the secret is fixed inside it,
  as `HMAC_KEY` is process-wide in the source).
- Rust `String::len` is the UTF-8 byte count, modelled by `String.utf8ByteSize`.
- A Rust panic (an `unwrap`/`expect` on `None`/`Err`) is a distinguished
  `panic` outcome of the model, never a normal response.
-/

set_option maxHeartbeats 1000000

namespace Pastebin

/-- `const BASE62` (main.rs:51): the 62-character id alphabet. -/
def BASE62 : List Char :=
  "0123456789ABCDEFGHIJKLMNOPQRSTUVWXYZabcdefghijklmnopqrstuvwxyz".toList

/-- `const ID_LEN` (main.rs:52): initial id length. -/
def ID_LEN : Nat := 5

/-- `const KEY_BYTES` (main.rs:53): number of MAC bytes kept for the edit key. -/
def KEY_BYTES : Nat := 8

/-- `const MAX_PASTE_BYTES` (main.rs:54): 2 MB paste size limit. -/
def MAX_PASTE_BYTES : Nat := 2 * 1024 * 1024

/-- A `u8` of the MAC output. -/
abbrev Byte := Fin 256

/-- One hex digit of Rust's uppercase format specifier. -/
def hexCharUpper (n : Nat) : Char :=
  if n < 10 then Char.ofNat (48 + n) else Char.ofNat (55 + n)

/-- `format!` with specifier `02X` applied to a byte: two uppercase hex digits
(a byte is below 256, so the width is exactly two). -/
def byteHexUpper (b : Byte) : List Char :=
  [hexCharUpper (b.val / 16), hexCharUpper (b.val % 16)]

/-- Models `gen_key` (main.rs:320-329): HMAC-SHA256 the id, take the first
`KEY_BYTES` bytes of the MAC, format each with the uppercase specifier `02X`,
concatenate, and lowercase the result (`key.to_lowercase()`; every character is
an ASCII hex digit, so Rust's lowercasing is per-character `Char.toLower`).
The external MAC primitive is the parameter `hmac`. -/
def gen_key (hmac : String → List Byte) (input : String) : String :=
  String.mk ((((hmac input).take KEY_BYTES).map byteHexUpper).flatten.map Char.toLower)

/-- One lowercase hex digit. -/
def hexCharLower (n : Nat) : Char :=
  if n < 10 then Char.ofNat (48 + n) else Char.ofNat (87 + n)

/-- A byte as two lowercase hex digits. -/
def byteHexLower (b : Byte) : List Char :=
  [hexCharLower (b.val / 16), hexCharLower (b.val % 16)]

/-- Modelled from the spec: "take a fixed-length prefix of the MAC output
(e.g. first 8 bytes) and hex-encode it lowercase" — the spec-side key
derivation, to be compared with `gen_key` from the source. -/
def deriveKeySpec (hmac : String → List Byte) (input : String) : String :=
  String.mk (((hmac input).take 8).map byteHexLower).flatten

/-- The `uploads/` directory: an association list from paste id to content.
A fresh write is consed in front; lookups take the first match, so the list
denotes a finite map. -/
abbrev Store := List (String × String)

/-- `Path::new(&format!("uploads/.."id)).exists()`: the id names a stored paste. -/
def pathExists (store : Store) (id : String) : Bool :=
  store.any (fun p => p.1 == id)

/-- `File::open` + `read_to_string` on `uploads/{id}`. -/
def readPaste (store : Store) (id : String) : Option String :=
  (store.find? (fun p => p.1 == id)).map (fun p => p.2)

/-- `File::create` + `write_all` on `uploads/{id}`: create or overwrite. -/
def writePaste (store : Store) (id : String) (content : String) : Store :=
  (id, content) :: store

/-- `fs::remove_file` on `uploads/{id}`. -/
def removePaste (store : Store) (id : String) : Store :=
  store.filter (fun p => p.1 != id)

/-- Models `generate_id` (main.rs:311-318): a string of `size` characters, each
`BASE62[rng.gen::<usize>() % 62]`. The random draws are the stream `rng`,
read at positions `pos`, `pos + 1`, … (each loop iteration of the caller
consumes fresh draws). -/
def generate_id (rng : Nat → Nat) (pos size : Nat) : String :=
  String.mk ((List.range size).map (fun i => BASE62.getD (rng (pos + i) % 62) '0'))

/-- Length of the longest id present in the store (only used for the
termination measure of the allocation loop: a candidate longer than every
stored id cannot collide). -/
def maxIdLen (store : Store) : Nat :=
  store.foldr (fun p acc => max p.1.length acc) 0

theorem length_le_maxIdLen :
    ∀ {store : Store} {p : String × String}, p ∈ store → p.1.length ≤ maxIdLen store := by
  intro store
  induction store with
  | nil => intro p hp; cases hp
  | cons q rest ih =>
    intro p hp
    rcases List.mem_cons.mp hp with hp | hp
    · subst hp; simp [maxIdLen]
    · exact le_trans (ih hp) (by simp [maxIdLen])

theorem length_generate_id (rng : Nat → Nat) (pos size : Nat) :
    (generate_id rng pos size).length = size := by
  simp [generate_id]

theorem pathExists_imp_le_maxIdLen {store : Store} {id : String}
    (h : pathExists store id = true) : id.length ≤ maxIdLen store := by
  rcases List.any_eq_true.mp h with ⟨p, hp, hid⟩
  rcases p with ⟨pid, pc⟩
  have : pid = id := by simpa using hid
  subst this
  exact length_le_maxIdLen hp

/-- Models the id-allocation loop of `submit` (main.rs:212-222): generate a
candidate of length `double_id_len / 2`, exit the loop if no paste with that id
exists, otherwise increment `double_id_len` (so the length grows by one every
two failed attempts) and retry with fresh random draws. The loop terminates
because the store is finite: once the candidate is longer than every stored id
it cannot collide. -/
def allocLoop (rng : Nat → Nat) (store : Store) (pos double_id_len : Nat) : String :=
  if h : pathExists store (generate_id rng pos (double_id_len / 2)) then
    allocLoop rng store (pos + double_id_len / 2) (double_id_len + 1)
  else
    generate_id rng pos (double_id_len / 2)
  termination_by 2 * maxIdLen store + 2 - double_id_len
  decreasing_by
    have hlen : double_id_len / 2 ≤ maxIdLen store := by
      have := pathExists_imp_le_maxIdLen h
      simpa [length_generate_id] using this
    have hdbl : double_id_len < 2 * maxIdLen store + 2 := by
      have : double_id_len < (maxIdLen store + 1) * 2 :=
        (Nat.div_lt_iff_lt_mul (by decide)).mp (Nat.lt_succ_of_le hlen)
      omega
    omega

/-- `enum HighlightedText` (main.rs:80-85). -/
inductive HighlightedText where
  | terminal (s : String)
  | html (s : String)
  | error (s : String)
  deriving DecidableEq

/-- Models `highlight` (main.rs:351-371). `synFor lang` models
`find_syntax_by_extension(lang)` of the external syntect crate composed with
the plain-text check: `none` when the extension is unknown (the source then
falls back to the plain-text syntax, whose name `"Plain Text"` triggers the
error branch), `some syn` when a real syntax is found. `render syn buffer
html` models the two syntect rendering calls. -/
def highlight (synFor : String → Option String)
    (render : String → String → Bool → String)
    (buffer : String) (lang : String) (html : Bool) : HighlightedText :=
  match synFor lang with
  | none => .error ("Requested highlight \"" ++ lang ++ "\" not available")
  | some syn =>
    if html then .html (render syn buffer true)
    else .terminal (render syn buffer false)

/-- An HTTP response of a handler, by status and body (for the templated HTML
paste view the body is the rendered paste handed to the template). -/
inductive Resp where
  | ok (body : String)
  | okHtml (body : String)
  | created (body : String)
  | badRequest (body : String)
  | notFound (body : String)
  deriving DecidableEq

/-- Outcome of running a handler: either a response together with the store it
leaves behind, or a Rust panic (an `unwrap`/`expect` failure), which produces
no response. -/
inductive HandlerResult where
  | resp (store : Store) (r : Resp)
  | panic (msg : String)
  deriving DecidableEq

/-- Models `validate_key_id` (main.rs:297-309): read the `paste_id` and `key`
route parameters (absent parameters default to `""`), first check that
`uploads/{id}` exists (else `Err("Paste {id} does not exist")`), then compare
the supplied key with `gen_key(&id)` (else `Err("Key is not valid")`). -/
def validate_key_id (hmac : String → List Byte) (store : Store)
    (idParam keyParam : Option String) : Except String (String × String) :=
  let id := idParam.getD ""
  if ¬ pathExists store id then
    .error ("Paste " ++ id ++ " does not exist")
  else
    let key := keyParam.getD ""
    if key ≠ gen_key hmac id then
      .error "Key is not valid"
    else
      .ok (id, "uploads/" ++ id)

/-- The tail of `submit` (main.rs:207-227), once the paste text is in hand:
reject a paste over `MAX_PASTE_BYTES` (`paste.len()` is the UTF-8 byte count),
otherwise allocate an id, write `uploads/{id}`, and answer `Created` with the
view/edit URLs (`host` is the result of `get_hostname`). -/
def submitPaste (hmac : String → List Byte) (rng : Nat → Nat) (host : String)
    (store : Store) (paste : String) : Store × Resp :=
  if paste.utf8ByteSize > MAX_PASTE_BYTES then
    (store, .badRequest ("Pastes may not be more than "
      ++ toString (MAX_PASTE_BYTES / 1048576) ++ " MB.\n"))
  else
    let id := allocLoop rng store 0 (ID_LEN * 2)
    let url := "https://" ++ host ++ "/" ++ id
    (writePaste store id paste,
     .created ("View URL: " ++ url ++ "\nEdit URL: " ++ url ++ "/"
       ++ gen_key hmac id ++ "\n"))

/-- Models `submit` (main.rs:190-228). `rawBody` is the parsed raw POST body
(`bodyparser::Raw`, `none` when the body is empty), `dataParam` the optional
`data` form field: take the raw body if present, else the form field, else
answer `BadRequest "No paste data submitted"`; then continue in
`submitPaste`. -/
def submit (hmac : String → List Byte) (rng : Nat → Nat) (host : String)
    (store : Store) (rawBody dataParam : Option String) : Store × Resp :=
  match rawBody, dataParam with
  | none, none => (store, .badRequest "No paste data submitted.\n")
  | none, some data => submitPaste hmac rng host store data
  | some paste, _ => submitPaste hmac rng host store paste

/-- Models `retrieve` (main.rs:230-265): read the `paste_id` and optional
`lang` route parameters, open `uploads/{id}` (absent gives `NotFound`), and
either return the raw content (no `lang`), or run the highlighter with
`html_output = !is_curl(req)` and return the terminal text, the templated
HTML page, or a `BadRequest` for an unavailable highlight. -/
def retrieve (synFor : String → Option String)
    (render : String → String → Bool → String) (store : Store)
    (idParam : Option String) (lang : Option String) (isCurl : Bool) : Resp :=
  let id := idParam.getD ""
  match readPaste store id with
  | none => .notFound ("Paste " ++ id ++ " does not exist\n")
  | some buffer =>
    match lang with
    | some l =>
      match highlight synFor render buffer l (¬ isCurl) with
      | .terminal s => .ok s
      | .html s => .okHtml s
      | .error s => .badRequest ("Invalid request: " ++ s ++ ".\n")
    | none => .ok buffer

/-- Models `delete` (main.rs:267-275): run `validate_key_id`; on error answer
`BadRequest` with the reason and touch nothing; on success remove the file and
acknowledge. -/
def delete (hmac : String → List Byte) (store : Store)
    (idParam keyParam : Option String) : Store × Resp :=
  match validate_key_id hmac store idParam keyParam with
  | .error reason => (store, .badRequest ("Invalid request: " ++ reason ++ ".\n"))
  | .ok (id, _path) =>
    (removePaste store id, .ok ("Paste " ++ id ++ " deleted.\n"))

/-- Models `replace` (main.rs:277-291): run `validate_key_id`; on error answer
`BadRequest` and touch nothing. On success the handler calls
`req.get::<bodyparser::Raw>()).unwrap()` on the parsed body — when the body is
absent (`bodyparser::Raw` yields `None` for an empty body) this `unwrap`
panics. Otherwise enforce the size limit, then overwrite the file. -/
def replace (hmac : String → List Byte) (host : String) (store : Store)
    (idParam keyParam : Option String) (rawBody : Option String) : HandlerResult :=
  match validate_key_id hmac store idParam keyParam with
  | .error reason => .resp store (.badRequest ("Invalid request: " ++ reason ++ ".\n"))
  | .ok (id, _path) =>
    match rawBody with
    | none => .panic "called Option::unwrap() on a None value"
    | some paste =>
      if paste.utf8ByteSize > MAX_PASTE_BYTES then
        .resp store (.badRequest ("Pastes may not be more than "
          ++ toString (MAX_PASTE_BYTES / 1048576) ++ " MB.\n"))
      else
        .resp (writePaste store id paste)
          (.ok ("https://" ++ host ++ "/" ++ id ++ " overwritten.\n"))

/-! ## The retention sweeper (main.rs:135-152)

The spawned thread loops forever: each cycle enumerates `./uploads`
(`fs::read_dir(..).unwrap()` — a panic on failure), and for each entry reads
its modification time and deletes it when it is more than thirty days old
(`fs::remove_file(path).expect("deleting file")` — a panic on failure). A
panic terminates the sweeper thread permanently. A directory entry is
modelled by its path, its age in seconds (the result of
`now.duration_since(last_modified)`; the metadata calls are assumed to
succeed) and whether `fs::remove_file` on it would succeed. -/

structure SweepEntry where
  path : String
  ageSecs : Nat
  removeOk : Bool
  deriving DecidableEq

/-- `Duration::from_secs(60*60*24) * 30`. -/
def thirtyDaysSecs : Nat := 60 * 60 * 24 * 30

/-- The per-entry body of one sweep cycle (main.rs:142-149), over the
enumerated entries in order: delete every entry older than thirty days;
`ok deleted` lists the deleted paths, `error` is a panic (at the first entry
whose deletion fails), which abandons the remaining entries. -/
def sweepFiles : List SweepEntry → Except String (List String)
  | [] => .ok []
  | f :: rest =>
    if f.ageSecs > thirtyDaysSecs then
      if f.removeOk then (sweepFiles rest).map (fun d => f.path :: d)
      else .error "deleting file"
    else sweepFiles rest

/-- One sweep cycle (main.rs:140-149): enumerate `./uploads`
(`none` models `fs::read_dir` returning `Err`, on which `unwrap` panics),
then sweep the entries. -/
def sweepCycle (dir : Option (List SweepEntry)) : Except String (List String) :=
  match dir with
  | none => .error "called Result::unwrap() on an Err value"
  | some files => sweepFiles files

/-- The sweeper loop (main.rs:139-151), observed for `n` cycles; `dirs i` is
the enumeration result at cycle `i`. A panic in a cycle kills the thread: no
later cycle runs, the whole loop ends with that panic. -/
def sweeperLoop : Nat → (Nat → Option (List SweepEntry)) → Except String (List (List String))
  | 0, _ => .ok []
  | n + 1, dirs =>
    match sweepCycle (dirs 0) with
    | .error e => .error e
    | .ok deleted => (sweeperLoop n (fun i => dirs (i + 1))).map (fun r => deleted :: r)

/-! ## Concrete instances for witnesses -/

/-- A concrete stand-in for the external HMAC-SHA256 primitive: 32 zero bytes
for every input (only the interface shape — at least 8 bytes of output —
matters to the theorems this witnesses). -/
def hmac0 : String → List Byte := fun _ => List.replicate 32 0

/-- A concrete random stream. -/
def rng0 : Nat → Nat := fun _ => 0

/-- A paste one byte over the size limit. -/
def bigPaste : String := String.mk (List.replicate (MAX_PASTE_BYTES + 1) 'a')

/-- Data-model invariant (spec §3): every retrievable paste content is within
the size limit at rest. -/
def StoreOk (store : Store) : Prop :=
  ∀ id c, readPaste store id = some c → c.utf8ByteSize ≤ MAX_PASTE_BYTES

/-- The store a handler run leaves behind: the store of its response, or the
unchanged prior store when the handler panicked (a panic writes nothing). -/
def resultStore (s0 : Store) : HandlerResult → Store
  | .resp s _ => s
  | .panic _ => s0

/-- A directory entry 31 days old whose `fs::remove_file` fails. -/
def entryA : SweepEntry := ⟨"uploads/a", thirtyDaysSecs + 1, false⟩

/-- A directory entry 31 days old whose `fs::remove_file` succeeds. -/
def entryB : SweepEntry := ⟨"uploads/b", thirtyDaysSecs + 1, true⟩

/-! ## Helper lemmas -/

theorem byteHexUpper_toLower (b : Byte) :
    (byteHexUpper b).map Char.toLower = byteHexLower b := by
  have h16 : ∀ n : Fin 16, (hexCharUpper n.val).toLower = hexCharLower n.val := by decide
  have hdiv : b.val / 16 < 16 := by omega
  have hmod : b.val % 16 < 16 := Nat.mod_lt _ (by decide)
  simp only [byteHexUpper, byteHexLower, List.map_cons, List.map_nil]
  rw [h16 ⟨b.val / 16, hdiv⟩, h16 ⟨b.val % 16, hmod⟩]

theorem flatten_byteHexUpper_toLower (l : List Byte) :
    ((l.map byteHexUpper).flatten).map Char.toLower = (l.map byteHexLower).flatten := by
  induction l with
  | nil => rfl
  | cons b rest ih => simp [List.map_append, ih, byteHexUpper_toLower]

theorem gen_key_eq_deriveKeySpec (hmac : String → List Byte) (input : String) :
    gen_key hmac input = deriveKeySpec hmac input := by
  simp only [gen_key, deriveKeySpec, KEY_BYTES]
  rw [flatten_byteHexUpper_toLower]

theorem length_flatten_byteHexLower (l : List Byte) :
    ((l.map byteHexLower).flatten).length = 2 * l.length := by
  induction l with
  | nil => rfl
  | cons b rest ih => simp [byteHexLower, ih]; omega

theorem gen_key_length (hmac : String → List Byte) (input : String)
    (h : 8 ≤ (hmac input).length) : (gen_key hmac input).length = 16 := by
  rw [gen_key_eq_deriveKeySpec]
  show ((((hmac input).take 8).map byteHexLower).flatten).length = 16
  rw [length_flatten_byteHexLower, List.length_take]
  omega

theorem byteHexLower_mem_hex (b : Byte) :
    ∀ c ∈ byteHexLower b, c ∈ "0123456789abcdef".toList := by
  have h16 : ∀ n : Fin 16, hexCharLower n.val ∈ "0123456789abcdef".toList := by decide
  have hdiv : b.val / 16 < 16 := by omega
  have hmod : b.val % 16 < 16 := Nat.mod_lt _ (by decide)
  intro c hc
  simp only [byteHexLower, List.mem_cons, List.not_mem_nil, or_false] at hc
  rcases hc with rfl | rfl
  · exact h16 ⟨b.val / 16, hdiv⟩
  · exact h16 ⟨b.val % 16, hmod⟩

theorem gen_key_chars_hex (hmac : String → List Byte) (input : String) :
    ∀ c ∈ (gen_key hmac input).data, c ∈ "0123456789abcdef".toList := by
  rw [gen_key_eq_deriveKeySpec]
  intro c hc
  simp only [deriveKeySpec] at hc
  rcases List.mem_flatten.mp hc with ⟨piece, hpiece, hcp⟩
  rcases List.mem_map.mp hpiece with ⟨b, _, rfl⟩
  exact byteHexLower_mem_hex b c hcp

/-- The allocation loop only returns an id that, at the moment of its
existence check, is not in the store. -/
theorem pathExists_allocLoop (rng : Nat → Nat) (store : Store)
    (pos double_id_len : Nat) :
    pathExists store (allocLoop rng store pos double_id_len) = false := by
  rw [allocLoop]
  split
  · exact pathExists_allocLoop rng store (pos + double_id_len / 2) (double_id_len + 1)
  · simpa using Bool.of_not_eq_true (by assumption)
  termination_by 2 * maxIdLen store + 2 - double_id_len
  decreasing_by
    rename_i h
    have hlen : double_id_len / 2 ≤ maxIdLen store := by
      have := pathExists_imp_le_maxIdLen h
      simpa [length_generate_id] using this
    have hdbl : double_id_len < 2 * maxIdLen store + 2 := by
      have : double_id_len < (maxIdLen store + 1) * 2 :=
        (Nat.div_lt_iff_lt_mul (by decide)).mp (Nat.lt_succ_of_le hlen)
      omega
    omega

theorem readPaste_writePaste (store : Store) (id content : String) :
    readPaste (writePaste store id content) id = some content := by
  simp [readPaste, writePaste, List.find?]

theorem readPaste_writePaste_ne (store : Store) (id content j : String)
    (h : j ≠ id) : readPaste (writePaste store id content) j = readPaste store j := by
  have hb : (id == j) = false := beq_eq_false_iff_ne.mpr (Ne.symm h)
  simp [readPaste, writePaste, List.find?, hb]

theorem utf8ByteSize_bigPaste : bigPaste.utf8ByteSize = MAX_PASTE_BYTES + 1 := by
  have : ∀ n, String.utf8Len (List.replicate n 'a') = n := by
    intro n
    induction n with
    | zero => rfl
    | succ m ih => simp [List.replicate_succ, ih, Char.utf8Size]
  simp [bigPaste, this]

theorem bigPaste_oversize : bigPaste.utf8ByteSize > MAX_PASTE_BYTES := by
  simp [utf8ByteSize_bigPaste]

theorem storeOk_writePaste {store : Store} {id content : String}
    (hok : StoreOk store) (hc : content.utf8ByteSize ≤ MAX_PASTE_BYTES) :
    StoreOk (writePaste store id content) := by
  intro j d hj
  by_cases hji : j = id
  · subst hji
    rw [readPaste_writePaste] at hj
    cases hj
    exact hc
  · rw [readPaste_writePaste_ne _ _ _ _ hji] at hj
    exact hok j d hj

theorem storeOk_submitPaste (hmac : String → List Byte) (rng : Nat → Nat)
    (host : String) (store : Store) (paste : String) (hok : StoreOk store) :
    StoreOk (submitPaste hmac rng host store paste).1 := by
  unfold submitPaste
  split
  · exact hok
  · rename_i hgt
    have hle : paste.utf8ByteSize ≤ MAX_PASTE_BYTES := by omega
    exact storeOk_writePaste hok hle

theorem storeOk_submit (hmac : String → List Byte) (rng : Nat → Nat)
    (host : String) (store : Store) (rawBody dataParam : Option String)
    (hok : StoreOk store) :
    StoreOk (submit hmac rng host store rawBody dataParam).1 := by
  unfold submit
  rcases rawBody with _ | paste
  · rcases dataParam with _ | data
    · exact hok
    · exact storeOk_submitPaste hmac rng host store data hok
  · exact storeOk_submitPaste hmac rng host store paste hok

theorem storeOk_replace (hmac : String → List Byte) (host : String)
    (store : Store) (idParam keyParam rawBody : Option String)
    (hok : StoreOk store) :
    StoreOk (resultStore store (replace hmac host store idParam keyParam rawBody)) := by
  unfold replace
  cases validate_key_id hmac store idParam keyParam with
  | error reason => exact hok
  | ok p =>
    obtain ⟨id, path⟩ := p
    rcases rawBody with _ | paste
    · exact hok
    · show StoreOk (resultStore store
        (if paste.utf8ByteSize > MAX_PASTE_BYTES then
          HandlerResult.resp store (Resp.badRequest ("Pastes may not be more than "
            ++ toString (MAX_PASTE_BYTES / 1048576) ++ " MB.\n"))
        else
          HandlerResult.resp (writePaste store id paste)
            (Resp.ok ("https://" ++ host ++ "/" ++ id ++ " overwritten.\n"))))
      by_cases hgt : paste.utf8ByteSize > MAX_PASTE_BYTES
      · rw [if_pos hgt]
        exact hok
      · rw [if_neg hgt]
        have hle : paste.utf8ByteSize ≤ MAX_PASTE_BYTES := by omega
        exact storeOk_writePaste hok hle

theorem generate_id_chars (rng : Nat → Nat) (pos size : Nat) :
    ∀ c ∈ (generate_id rng pos size).data, c ∈ BASE62 := by
  intro c hc
  simp only [generate_id] at hc
  rcases List.mem_map.mp hc with ⟨i, _, rfl⟩
  have h62 : rng (pos + i) % 62 < BASE62.length := by
    have hlen : BASE62.length = 62 := by decide
    rw [hlen]
    exact Nat.mod_lt _ (by decide)
  rw [List.getD_eq_getElem _ _ h62]
  exact List.getElem_mem h62

/-! ## Claims -/

/-- Claim C1: for every replace or delete request, the authorization check
(`validate_key_id`) first tests whether a paste with the given id exists,
yielding the not-found error if it is absent — whatever key was supplied —
and only then compares the supplied key to the derived key, yielding the
invalid-key error on mismatch; both `delete` and `replace` run this check
before any mutation (on either error the store is returned unchanged), and
`retrieve` performs no such check: it returns the stored content for any
request that names an existing id, with no key input at all. -/
theorem validate_before_mutate_not_on_retrieve :
    (∀ (hmac : String → List Byte) (store : Store) (idP keyP : Option String),
      pathExists store (idP.getD "") = false →
      validate_key_id hmac store idP keyP =
        .error ("Paste " ++ idP.getD "" ++ " does not exist")) ∧
    (∀ (hmac : String → List Byte) (store : Store) (idP keyP : Option String),
      pathExists store (idP.getD "") = true →
      keyP.getD "" ≠ gen_key hmac (idP.getD "") →
      validate_key_id hmac store idP keyP = .error "Key is not valid") ∧
    (∀ (hmac : String → List Byte) (store : Store) (idP keyP : Option String)
      (e : String), validate_key_id hmac store idP keyP = .error e →
      delete hmac store idP keyP =
        (store, .badRequest ("Invalid request: " ++ e ++ ".\n"))) ∧
    (∀ (hmac : String → List Byte) (host : String) (store : Store)
      (idP keyP rawBody : Option String) (e : String),
      validate_key_id hmac store idP keyP = .error e →
      replace hmac host store idP keyP rawBody =
        .resp store (.badRequest ("Invalid request: " ++ e ++ ".\n"))) ∧
    (∀ (synFor : String → Option String) (render : String → String → Bool → String)
      (store : Store) (id c : String) (isCurl : Bool),
      readPaste store id = some c →
      retrieve synFor render store (some id) none isCurl = .ok c) := by
  refine ⟨?_, ?_, ?_, ?_, ?_⟩
  · intro hmac store idP keyP h
    simp [validate_key_id, h]
  · intro hmac store idP keyP h hk
    simp [validate_key_id, h, hk]
  · intro hmac store idP keyP e h
    simp [delete, h]
  · intro hmac host store idP keyP rawBody e h
    simp [replace, h]
  · intro synFor render store id c isCurl h
    simp [retrieve, h]

theorem validate_before_mutate_not_on_retrieve_witness :
    (pathExists ([] : Store) ((some "a").getD "") = false ∧
      validate_key_id hmac0 [] (some "a") (some "k") =
        .error ("Paste " ++ (some "a").getD "" ++ " does not exist")) ∧
    (validate_key_id hmac0 [("a", "c")] (some "a") (some "k") =
      .error "Key is not valid") ∧
    (delete hmac0 [("a", "c")] (some "a") (some "k") =
      ([("a", "c")], .badRequest ("Invalid request: " ++ "Key is not valid" ++ ".\n"))) ∧
    (replace hmac0 "h" [("a", "c")] (some "a") (some "k") (some "x") =
      .resp [("a", "c")] (.badRequest ("Invalid request: " ++ "Key is not valid" ++ ".\n"))) ∧
    (retrieve (fun _ => none) (fun _ _ _ => "") [("a", "c")] (some "a") none true =
      .ok "c") :=
  ⟨⟨by decide, validate_before_mutate_not_on_retrieve.1 hmac0 [] (some "a") (some "k")
      (by decide)⟩,
   validate_before_mutate_not_on_retrieve.2.1 hmac0 [("a", "c")] (some "a") (some "k")
     (by decide) (by decide),
   validate_before_mutate_not_on_retrieve.2.2.1 hmac0 [("a", "c")] (some "a") (some "k")
     "Key is not valid" (by rfl),
   validate_before_mutate_not_on_retrieve.2.2.2.1 hmac0 "h" [("a", "c")] (some "a")
     (some "k") (some "x") "Key is not valid" (by rfl),
   validate_before_mutate_not_on_retrieve.2.2.2.2 (fun _ => none) (fun _ _ _ => "")
     [("a", "c")] "a" "c" true (by rfl)⟩

/-- Claim C2: for every existing paste id and every supplied key different
from the derived key for that id, `replace` fails with the invalid-key error
and the resulting store is exactly the store before the call, so the stored
content of the paste is unchanged. -/
theorem replace_wrong_key_frame (hmac : String → List Byte) (host : String)
    (store : Store) (id key : String) (body : Option String)
    (hex : pathExists store id = true) (hk : key ≠ gen_key hmac id) :
    replace hmac host store (some id) (some key) body =
      .resp store (.badRequest ("Invalid request: " ++ "Key is not valid" ++ ".\n")) := by
  simp [replace, validate_key_id, hex, hk]

theorem replace_wrong_key_frame_witness :
    pathExists [("a", "c")] "a" = true ∧ "k" ≠ gen_key hmac0 "a" ∧
    replace hmac0 "h" [("a", "c")] (some "a") (some "k") (some "new") =
      .resp [("a", "c")] (.badRequest ("Invalid request: " ++ "Key is not valid" ++ ".\n")) :=
  ⟨by decide, by decide,
   replace_wrong_key_frame hmac0 "h" [("a", "c")] "a" "k" (some "new")
     (by decide) (by decide)⟩

/-- Claim C3 is refuted on the code (code bug): the sweeper thread deletes
with `fs::remove_file(path).expect("deleting file")` and enumerates with
`fs::read_dir("./uploads").unwrap()` (main.rs:141,147), so a failure panics
and kills the sweeper thread. Concretely: with two expired entries of which
the first fails to delete, the cycle aborts before the second entry — which a
sweep of it alone does delete — and the loop runs no further cycles; likewise
a failed enumeration ends the loop permanently instead of costing only that
cycle. -/
theorem sweeper_panic_kills_thread :
    sweepFiles [entryA, entryB] = .error "deleting file" ∧
    sweepFiles [entryB] = .ok ["uploads/b"] ∧
    sweeperLoop 2 (fun _ => some [entryA, entryB]) = .error "deleting file" ∧
    sweeperLoop 2 (fun i => if i = 0 then none else some [entryB]) =
      .error "called Result::unwrap() on an Err value" :=
  ⟨rfl, rfl, rfl, rfl⟩

/-- Claim C4 is refuted on the code (code bug): after a successful key check,
`replace` runs `itry!(req.get::<bodyparser::Raw>()).unwrap()` (main.rs:283);
when the body is absent the parsed body is `None` and the `unwrap` panics, so
a replace request with a valid key and an absent body aborts the request
handling instead of producing a response. Evaluated at a store holding paste
`vxcRz`, the correct derived key for it, and an absent body. -/
theorem replace_absent_body_panics :
    replace hmac0 "h" [("vxcRz", "c")] (some "vxcRz")
      (some (gen_key hmac0 "vxcRz")) none =
      .panic "called Option::unwrap() on a None value" := by
  rfl

/-- Claim C5: for all content within the size limit, `submit` succeeds with
status `Created`, returning an id under which the content is stored, and a
subsequent `retrieve` of that id with no language hint returns exactly the
submitted content. -/
theorem submit_retrieve_roundtrip (hmac : String → List Byte) (rng : Nat → Nat)
    (host : String) (store : Store) (paste : String) (dataParam : Option String)
    (synFor : String → Option String) (render : String → String → Bool → String)
    (isCurl : Bool) (hsize : paste.utf8ByteSize ≤ MAX_PASTE_BYTES) :
    ∃ id : String,
      submit hmac rng host store (some paste) dataParam =
        (writePaste store id paste,
         .created ("View URL: " ++ ("https://" ++ host ++ "/" ++ id)
           ++ "\nEdit URL: " ++ ("https://" ++ host ++ "/" ++ id) ++ "/"
           ++ gen_key hmac id ++ "\n")) ∧
      retrieve synFor render (writePaste store id paste) (some id) none isCurl =
        .ok paste := by
  refine ⟨allocLoop rng store 0 (ID_LEN * 2), ?_, ?_⟩
  · have hn : ¬ paste.utf8ByteSize > MAX_PASTE_BYTES := by omega
    simp [submit, submitPaste, hn]
  · simp [retrieve, readPaste_writePaste]

theorem submit_retrieve_roundtrip_witness :
    "hello".utf8ByteSize ≤ MAX_PASTE_BYTES ∧
    ∃ id : String,
      submit hmac0 rng0 "h" [] (some "hello") none =
        (writePaste [] id "hello",
         .created ("View URL: " ++ ("https://" ++ "h" ++ "/" ++ id)
           ++ "\nEdit URL: " ++ ("https://" ++ "h" ++ "/" ++ id) ++ "/"
           ++ gen_key hmac0 id ++ "\n")) ∧
      retrieve (fun _ => none) (fun _ _ _ => "") (writePaste [] id "hello")
        (some id) none true = .ok "hello" :=
  ⟨by decide,
   submit_retrieve_roundtrip hmac0 rng0 "h" [] "hello" none
     (fun _ => none) (fun _ _ _ => "") true (by decide)⟩

/-- Claim C6: for all content over the size limit, `submit` fails with the
size-exceeded error and the resulting store is exactly the store before the
call: no paste record is created and no id is allocated. -/
theorem submit_oversize_no_record (hmac : String → List Byte) (rng : Nat → Nat)
    (host : String) (store : Store) (paste : String) (dataParam : Option String)
    (hsize : paste.utf8ByteSize > MAX_PASTE_BYTES) :
    submit hmac rng host store (some paste) dataParam =
      (store, .badRequest ("Pastes may not be more than "
        ++ toString (MAX_PASTE_BYTES / 1048576) ++ " MB.\n")) := by
  simp [submit, submitPaste, hsize]

theorem submit_oversize_no_record_witness :
    bigPaste.utf8ByteSize > MAX_PASTE_BYTES ∧
    submit hmac0 rng0 "h" [] (some bigPaste) none =
      ([], .badRequest ("Pastes may not be more than "
        ++ toString (MAX_PASTE_BYTES / 1048576) ++ " MB.\n")) :=
  ⟨bigPaste_oversize,
   submit_oversize_no_record hmac0 rng0 "h" [] bigPaste none bigPaste_oversize⟩

/-- Claim C7: for every id (and the fixed process-wide secret inside the MAC
primitive), `gen_key` is deterministic, equals the lowercase hex encoding of
the first 8 bytes of the HMAC of the UTF-8 bytes of the id (`deriveKeySpec`,
written from the spec), and is a 16-character string of lowercase hex digits
whenever the MAC yields at least 8 bytes (HMAC-SHA256 yields 32). -/
theorem gen_key_deterministic_hex (hmac : String → List Byte) (input : String)
    (h : 8 ≤ (hmac input).length) :
    gen_key hmac input = gen_key hmac input ∧
    gen_key hmac input = deriveKeySpec hmac input ∧
    (gen_key hmac input).length = 16 ∧
    ∀ c ∈ (gen_key hmac input).data, c ∈ "0123456789abcdef".toList :=
  ⟨rfl, gen_key_eq_deriveKeySpec hmac input, gen_key_length hmac input h,
   gen_key_chars_hex hmac input⟩

theorem gen_key_deterministic_hex_witness :
    8 ≤ (hmac0 "vxcRz").length ∧
    (gen_key hmac0 "vxcRz" = gen_key hmac0 "vxcRz" ∧
     gen_key hmac0 "vxcRz" = deriveKeySpec hmac0 "vxcRz" ∧
     (gen_key hmac0 "vxcRz").length = 16 ∧
     ∀ c ∈ (gen_key hmac0 "vxcRz").data, c ∈ "0123456789abcdef".toList) :=
  ⟨by decide, gen_key_deterministic_hex hmac0 "vxcRz" (by decide)⟩

/-- Claim C8: in the allocation loop, the first candidate id has the
configured initial length `ID_LEN` (the loop starts at
`double_id_len = ID_LEN * 2` and each candidate has length
`double_id_len / 2`), the candidate length grows by exactly one character per
two failed attempts (`double_id_len` grows by one per failure), every
candidate consists only of `BASE62` characters, and the returned id does not
exist in the store at the moment of its existence check. -/
theorem alloc_length_escalation_and_freshness :
    (∀ (rng : Nat → Nat) (pos : Nat),
      (generate_id rng pos (ID_LEN * 2 / 2)).length = ID_LEN) ∧
    (∀ (rng : Nat → Nat) (pos pos' dbl : Nat),
      (generate_id rng pos' ((dbl + 2) / 2)).length =
        (generate_id rng pos (dbl / 2)).length + 1) ∧
    (∀ (rng : Nat → Nat) (pos size : Nat),
      ∀ c ∈ (generate_id rng pos size).data, c ∈ BASE62) ∧
    (∀ (rng : Nat → Nat) (store : Store) (pos dbl : Nat),
      pathExists store (allocLoop rng store pos dbl) = false) := by
  refine ⟨?_, ?_, generate_id_chars, pathExists_allocLoop⟩
  · intro rng pos
    simp [length_generate_id]
  · intro rng pos pos' dbl
    simp [length_generate_id]

theorem alloc_length_escalation_and_freshness_witness :
    (generate_id rng0 0 (ID_LEN * 2 / 2)).length = ID_LEN ∧
    (generate_id rng0 9 ((10 + 2) / 2)).length =
      (generate_id rng0 0 (10 / 2)).length + 1 ∧
    ('0' ∈ (generate_id rng0 0 5).data ∧ '0' ∈ BASE62) ∧
    pathExists [("00000", "c")] (allocLoop rng0 [("00000", "c")] 0 (ID_LEN * 2)) =
      false :=
  ⟨alloc_length_escalation_and_freshness.1 rng0 0,
   alloc_length_escalation_and_freshness.2.1 rng0 0 9 10,
   ⟨by decide, alloc_length_escalation_and_freshness.2.2.1 rng0 0 5 '0' (by decide)⟩,
   alloc_length_escalation_and_freshness.2.2.2 rng0 [("00000", "c")] 0 (ID_LEN * 2)⟩

/-- Claim C9: both write paths check the size limit before writing, so if
every paste at rest is within the size limit before a `submit` or `replace`,
the same holds for the store each of them leaves behind — whatever their
input and outcome (error responses and the panic path leave the store
untouched; the success paths write content that passed the check). -/
theorem size_limit_invariant (hmac : String → List Byte) (rng : Nat → Nat)
    (host : String) (store : Store) (rawBody dataParam idP keyP : Option String)
    (hok : StoreOk store) :
    StoreOk (submit hmac rng host store rawBody dataParam).1 ∧
    StoreOk (resultStore store (replace hmac host store idP keyP rawBody)) :=
  ⟨storeOk_submit hmac rng host store rawBody dataParam hok,
   storeOk_replace hmac host store idP keyP rawBody hok⟩

theorem size_limit_invariant_witness :
    StoreOk [] ∧
    (StoreOk (submit hmac0 rng0 "h" [] (some "x") none).1 ∧
     StoreOk (resultStore [] (replace hmac0 "h" [] (some "a") (some "k") (some "x")))) :=
  ⟨fun id c h => by simp [readPaste] at h,
   size_limit_invariant hmac0 rng0 "h" [] (some "x") none (some "a") (some "k")
     (fun id c h => by simp [readPaste] at h)⟩

/-- Claim C10: for every existing paste id, a delete request through the
keyless route (no `key` route parameter, so the supplied key defaults to the
empty string) fails the key validation and leaves the store unchanged,
because the derived key is a 16-character — hence non-empty — string whenever
the MAC yields at least 8 bytes, and so never equals the empty string. -/
theorem keyless_delete_rejected (hmac : String → List Byte) (store : Store)
    (id : String) (hlen : 8 ≤ (hmac id).length)
    (hex : pathExists store id = true) :
    gen_key hmac id ≠ "" ∧
    delete hmac store (some id) none =
      (store, .badRequest ("Invalid request: " ++ "Key is not valid" ++ ".\n")) := by
  have hne : gen_key hmac id ≠ "" := by
    intro h
    have h16 := gen_key_length hmac id hlen
    rw [h] at h16
    simp at h16
  refine ⟨hne, ?_⟩
  have hk : ("" : String) ≠ gen_key hmac id := Ne.symm hne
  simp [delete, validate_key_id, hex, hk]

theorem keyless_delete_rejected_witness :
    (8 ≤ (hmac0 "a").length ∧ pathExists [("a", "c")] "a" = true) ∧
    (gen_key hmac0 "a" ≠ "" ∧
     delete hmac0 [("a", "c")] (some "a") none =
       ([("a", "c")], .badRequest ("Invalid request: " ++ "Key is not valid" ++ ".\n"))) :=
  ⟨⟨by decide, by decide⟩,
   keyless_delete_rejected hmac0 [("a", "c")] "a" (by decide) (by decide)⟩

end Pastebin
